import Mathlib

/-!
Verification development for the PiPyAWC aquarium controller.

Shallow embedding of the core components referenced by the specification:
the tank-state monitor and error sensors (`src/pipyawc/modules/peripherals/monitor.py`),
the dispenser's step-execution loop (`src/pipyawc/modules/peripherals/dispenser.py`),
the routine orchestration (`src/pipyawc/modules/logistics/routines.py` and
`src/pipyawc/modules/run_routine.py`), and the priority scheduler
(`src/pipyawc/modules/services/advanced_schedule.py`).

Conventions: Python floats used as durations/timestamps become `ℚ`;
Python datetimes become `ℚ` timestamps; Python dicts become association lists;
a value that Python code duck-types (float vs tuple vs exception) becomes an
inductive sum.  Hardware side effects (pump on/off) are recorded as an explicit
action trace.  The monitor's time-varying readings are supplied as an explicit
per-polling-tick trace, one entry per iteration of the dispenser's while-loop.
-/

/-- The value of `Monitor.tank_state` (monitor.py:252-279): either a state name
(`str`) or a `CheckError` instance signalling zero or multiple active states. -/
inductive TankState
  | state (name : String)
  | checkError
  deriving DecidableEq

/-- The `Step` configuration as dereferenced by `Dispenser.run_step` /
`Dispenser._run_step` (dispenser.py:111-152): the dispenser reads the singular
attributes `step.start_state` / `step.end_state` (the field names of the `Step`
dataclass in `src/src/modules/peripherals/routines.py`), plus `pump`, `name`,
`error_checks`, `max_time` and the five policy flags shared by both `Step`
dataclass generations.  `max_runtime` and the flags are the fields of the
current dataclass (`src/pipyawc/modules/logistics/steps.py:84-96`). -/
structure Step where
  name : String
  pump : String
  start_state : String
  end_state : String
  error_checks : List String
  max_runtime : ℚ
  report_invalid_start : Bool := true
  proceed_on_invalid_start : Bool := false
  proceed_on_timeout : Bool := false
  proceed_on_error : Bool := false
  cancel_on_critical_failure : Bool := true
  deriving DecidableEq

/-- `Step.max_time` (steps.py:113-123): `max(self.interval_range())` where
`interval_range() = [0.0, self.max_runtime]`. -/
def Step.max_time (s : Step) : ℚ := max 0 s.max_runtime

/-- A truthy entry of the dispenser's `errs` list: either an
`ErrorSensorTriggered` (name + remaining runs) returned by
`Monitor.check_error`, or the `PumpTimeoutError(step.pump, run_time)` appended
on timeout (dispenser.py:132). -/
inductive ErrItem
  | est (name : String) (remaining_runs : ℤ)
  | timeout (pump : String) (run_time : ℚ)
  deriving DecidableEq

/-- The duck-typed return value of `Dispenser.run_step` (dispenser.py:137-152):
a bare float `run_time` when no error was truthy, a `(run_time, errors)` tuple
when some error was truthy, or a bare `InitialStateError(step.name, tank_state)`
when the start-state check failed. -/
inductive StepResult
  | ok (run_time : ℚ)
  | faults (run_time : ℚ) (errs : List ErrItem)
  | invalidStart (step : String) (state : TankState)
  deriving DecidableEq

/-- Recorded calls on the pump relay (`gpiozero.DigitalOutputDevice`):
`pumps[step.pump].on()` and `pumps[step.pump].off()`. -/
inductive PumpAction
  | on
  | off
  deriving DecidableEq

/-- One iteration of the dispenser's polling loop, as observed from the
monitor and the wall clock: `tank_state` is the value of `monitor.tank_state`
at the top-of-loop test, `triggered` gives `monitor.error_checks[check]` for
each of the step's error checks during this iteration, and `run_time` is the
value of `time.time() - start_time` computed near the end of the body
(dispenser.py:130). -/
structure Tick where
  tank_state : TankState
  triggered : List Bool
  run_time : ℚ
  deriving DecidableEq

/-- One error check's per-iteration update, combining the sensor callback and
`errs[i] = monitor.check_error(check, decrement=not(errs[i]))`
(dispenser.py:121-122 together with monitor.py:301-311).  `cfg` is the check's
name and its sensor's `permitted_runs`; `st` is the pair of the previous
`errs[i]` entry and the sensor's current `remaining_runs`; `flag` is whether
the check is triggered this tick.  When the check is not triggered the
sensor's transition callback (`ErrorSensor._update_status`,
monitor.py:134-149) has reset `remaining_runs` to `permitted_runs`.
`check_error` decrements only when triggered and `decrement` is true, where
`decrement = not(errs[i])` uses the truthiness of the previous entry. -/
def tickCheck (cfg : String × ℤ) (st : Option ErrItem × ℤ) (flag : Bool) : Option ErrItem × ℤ :=
  let rem1 : ℤ := if flag then st.2 else cfg.2
  let dec : Bool := !st.1.isSome
  let rem2 : ℤ := if flag && dec then rem1 - 1 else rem1
  (if flag then some (ErrItem.est cfg.1 rem2) else none, rem2)

/-- The dispenser's while-loop (dispenser.py:117-133), one recursive call per
iteration, driven by the trace of `Tick`s.  The loop condition
`monitor.tank_state != step.end_state` is tested at the top; inside the body
every error check is re-evaluated; the `break` under
`if e.remaining_runs <= 0` (dispenser.py:125-128) exits only the inner `for e
in errs` scan, which has no side effects, so it does not affect this loop; the
only in-body exit is the timeout test `run_time >= max_time`.  Returns
`some (run_time, errs)` when the while-loop exits, `none` when the observation
window ends with the loop still polling. -/
def runLoop (cfgs : List (String × ℤ)) (end_state : String) (max_time : ℚ) (pump : String) :
    List Tick → List (Option ErrItem × ℤ) → ℚ → Option (ℚ × List (Option ErrItem))
  | [], _, _ => none
  | t :: ts, sts, rt =>
    if t.tank_state = TankState.state end_state then some (rt, sts.map Prod.fst)
    else
      let flags := (List.range cfgs.length).map (fun j => t.triggered.getD j false)
      let sts' := List.zipWith (fun p flag => tickCheck p.1 p.2 flag) (cfgs.zip sts) flags
      if max_time ≤ t.run_time then
        some (t.run_time, sts'.map Prod.fst ++ [some (ErrItem.timeout pump t.run_time)])
      else runLoop cfgs end_state max_time pump ts sts' t.run_time

namespace Dispenser

/-- `Dispenser._run_step` (dispenser.py:90-140) under a met start precondition:
pump on, `errs = [False for _ in step.error_checks]`, loop, pump off, then
return a bare float or a `(run_time, [e for e in errs if e])` tuple.  `perms`
and `rems0` give each check's sensor's `permitted_runs` and its
`remaining_runs` at call time; `r0` is the initial
`run_time = time.time() - start_time` measured right after `on()`. -/
def run_step_inner (step : Step) (perms rems0 : List ℤ) (r0 : ℚ) (ticks : List Tick) :
    Option (ℚ × List (Option ErrItem)) :=
  runLoop (step.error_checks.zip perms) step.end_state step.max_time step.pump ticks
    (rems0.map (fun r => ((none : Option ErrItem), r))) r0

/-- `Dispenser.run_step` (dispenser.py:142-152): if
`monitor.tank_state == step.start_state` run `_run_step`, else return a bare
`InitialStateError(step.name, monitor.tank_state)`.  `ts0` is the monitor's
tank state at call time.  The second component records the pump relay calls
made before the function returns; `none` as first component means the polling
loop is still running (no return yet) at the end of the supplied trace. -/
def run_step (step : Step) (ts0 : TankState) (perms rems0 : List ℤ) (r0 : ℚ)
    (ticks : List Tick) : Option StepResult × List PumpAction :=
  if ts0 = TankState.state step.start_state then
    match run_step_inner step perms rems0 r0 ticks with
    | none => (none, [PumpAction.on])
    | some (rt, errs) =>
      if errs.any Option.isSome then
        (some (StepResult.faults rt (errs.filterMap id)), [PumpAction.on, PumpAction.off])
      else
        (some (StepResult.ok rt), [PumpAction.on, PumpAction.off])
  else
    (some (StepResult.invalidStart step.name ts0), [])

end Dispenser

namespace Monitor

/-- `Monitor.tank_state` (monitor.py:252-279): each state's report is the
conjunction of its sensors' recorded booleans; if exactly one state reports
true (`sum(state_reports.values()) == 1`) return its name (`states[0]`),
otherwise return `CheckError()`.  `tank_states` is the monitor's
state-name-to-sensor-records dict as an association list, each record reduced
to its list of boolean values. -/
def tank_state (tank_states : List (String × List Bool)) : TankState :=
  match tank_states.filter (fun p => p.2.all (fun b => b)) with
  | [p] => TankState.state p.1
  | _ => TankState.checkError

end Monitor

/-- Events affecting one `ErrorSensor` (monitor.py:101-159, 281-311):
`trigger` / `clear` are the hardware transition callbacks
(`notify_monitor` → `_update_status` with the sensor entering or leaving its
`trigger_when` state), and `check d` is a `Monitor.check_error(name,
decrement=d)` call. -/
inductive ErrEvent
  | trigger
  | clear
  | check (decrement : Bool)
  deriving DecidableEq

/-- The mutable state of one `ErrorSensor` together with its entry in the
monitor's `error_checks` dict (`triggered`). -/
structure ErrorSensor where
  permitted_runs : ℤ
  remaining_runs : ℤ
  triggered : Bool
  deriving DecidableEq

/-- One event's effect on an error sensor.  `_update_status`
(monitor.py:134-149): on the trigger state set the flag; otherwise clear the
flag and reset `remaining_runs = permitted_runs`.  `check_error`
(monitor.py:301-306): `if state and decrement: remaining_runs -= 1` — no
lower bound is applied. -/
def errStep (s : ErrorSensor) (e : ErrEvent) : ErrorSensor :=
  match e with
  | ErrEvent.trigger => { s with triggered := true }
  | ErrEvent.clear => { s with triggered := false, remaining_runs := s.permitted_runs }
  | ErrEvent.check d =>
    if s.triggered && d then { s with remaining_runs := s.remaining_runs - 1 } else s

/-- A sequence of sensor transitions and `check_error` calls. -/
def errRun (s : ErrorSensor) (es : List ErrEvent) : ErrorSensor :=
  es.foldl errStep s

/-- The number of `check_error` calls with `decrement=True` in an event list. -/
def countDec (es : List ErrEvent) : ℕ :=
  es.countP (fun e => match e with | ErrEvent.check true => true | _ => false)

/-- Python exceptions raised by `Routine._run` while classifying a step
result: `TypeError` from unpacking a non-tuple
(`run_time, errs = ret`, routines.py:139), `IndexError` from `errs[0]`
on an empty list (routines.py:146). -/
inductive PyErr
  | typeError
  | indexError
  deriving DecidableEq

/-- Whether a `run_step` return value is a `(run_time, errors)` tuple. -/
def isFaults : StepResult → Bool
  | StepResult.faults _ _ => true
  | _ => false

/-- The step loop of `Routine._run` (routines.py:128-170, identical to
`run_routine._run`, run_routine.py:10-52), parameterised by the result each
`dispenser.run_step(step, monitor)` call would produce.  Per step: unpack the
result (raising `TypeError` unless it is a tuple); on `run_time == 0` report
`errs[0]` when `report_invalid_start` and stop unless
`proceed_on_invalid_start`; on `run_time > 0` a `PumpTimeoutError` stops
unless `proceed_on_timeout` and an `ErrorSensorTriggered` with
`remaining_runs <= 0` stops unless `proceed_on_error`; when stopping,
`cancel_on_critical_failure` turns the return value into `CancelJob`
(modelled as `some ()`). -/
def runSteps : List (Step × StepResult) → Except PyErr (Option Unit)
  | [] => Except.ok none
  | (step, res) :: rest =>
    match res with
    | StepResult.ok _ => Except.error PyErr.typeError
    | StepResult.invalidStart _ _ => Except.error PyErr.typeError
    | StepResult.faults rt errs =>
      if rt = 0 then
        if step.report_invalid_start ∧ errs = [] then Except.error PyErr.indexError
        else if !step.proceed_on_invalid_start then
          if step.cancel_on_critical_failure then Except.ok (some ()) else Except.ok none
        else runSteps rest
      else if 0 < rt then
        let stop := errs.any (fun e =>
          match e with
          | ErrItem.timeout _ _ => !step.proceed_on_timeout
          | ErrItem.est _ rem => !step.proceed_on_error && decide (rem ≤ 0))
        if stop then
          if step.cancel_on_critical_failure then Except.ok (some ()) else Except.ok none
        else runSteps rest
      else runSteps rest

/-- An `AdvancedJob` (services/advanced_schedule.py:63-219) restricted to the
fields the scheduling claims depend on.  `id` models Python object identity
(the `schedule` library stores distinct job objects; sets of jobs compare by
identity).  `next_run` is the scheduled timestamp, `priority` the tie-break
value (lower runs first), `tags` the job's tag set, `run_once` the
auto-cancel flag. -/
structure AdvJob where
  id : ℕ
  next_run : Option ℚ
  priority : ℤ
  tags : List String
  run_once : Bool
  deriving DecidableEq

/-- `AdvancedJob.__lt__` (services/advanced_schedule.py:119-142): jobs with
`next_run = None` compare as never-less; two scheduled jobs compare by
`next_run`, falling back to `priority` on equal times (all jobs here are
`AdvancedJob`s, so the `isinstance` fallback branch is not taken). -/
def schedLt (a b : AdvJob) : Bool :=
  match a.next_run, b.next_run with
  | none, none => false
  | some _, none => true
  | none, some _ => false
  | some x, some y => if x ≠ y then decide (x < y) else decide (a.priority < b.priority)

/-- `Job.should_run` of the `schedule` library (an external collaborator of
this repository): a job is due when `next_run <= now`; a job without a
`next_run` is never due. -/
def dueAt (now : ℚ) (j : AdvJob) : Bool :=
  match j.next_run with
  | some t => decide (t ≤ now)
  | none => false

/-- The order in which Python's `sorted` (as called by the `schedule`
library's `run_pending`) may place job `a` no later than job `b`:
`not (b < a)` under `AdvancedJob.__lt__`. -/
def pyLe (a b : AdvJob) : Prop := schedLt b a = false

instance : DecidableRel pyLe := fun a b => by unfold pyLe; infer_instance

/-- The specification's ordering contract, written from its words
(spec §3/§4.4/§8): lexicographic on `(next_run, priority)`, with `next_run =
None` sorting after every scheduled job (two never-scheduled jobs are
unordered).  Used to compare the source's `__lt__` against the claimed
order. -/
def claimOrder (a b : AdvJob) : Prop :=
  match a.next_run, b.next_run with
  | none, none => True
  | some _, none => True
  | none, some _ => False
  | some x, some y => x < y ∨ (x = y ∧ a.priority ≤ b.priority)

/-- The execution order of `run_pending` (external `schedule` library):
collect the due jobs and run them in `sorted` order, where `sorted` uses
`AdvancedJob.__lt__`; modelled as a sort whose output is `Sorted` under
`pyLe`, the guarantee Python's stable sort provides. -/
def runPendingOrder (now : ℚ) (jobs : List AdvJob) : List AdvJob :=
  List.insertionSort pyLe (jobs.filter (dueAt now))

/-- `Scheduler.get_jobs(tag)` of the `schedule` library: all jobs whose tag
set contains `tag`. -/
def get_jobs (jobs : List AdvJob) (tag : String) : List AdvJob :=
  jobs.filter (fun j => decide (tag ∈ j.tags))

/-- `AdvancedScheduler.get_jobs_from_tags`
(services/advanced_schedule.py:23-43): one set of jobs per tag, then
`jobs[0].intersection(*jobs[1:])`.  On an empty tag list `jobs[0]` raises
`IndexError`, modelled as `none`. -/
def get_jobs_from_tags (jobs : List AdvJob) (tags : List String) : Option (Finset AdvJob) :=
  match tags with
  | [] => none
  | t :: ts =>
    some (ts.foldl (fun acc tg => acc ∩ (get_jobs jobs tg).toFinset) (get_jobs jobs t).toFinset)

/-- Python's `min` over a list of priorities (`min(priorities)`), `None` on
the empty list (where Python would raise `ValueError`). -/
def pyMin : List ℤ → Option ℤ
  | [] => none
  | x :: xs => some (xs.foldl min x)

/-- Python's `max` over a list of priorities. -/
def pyMax : List ℤ → Option ℤ
  | [] => none
  | x :: xs => some (xs.foldl max x)

/-- `AdvancedJob.highest_priority` (services/advanced_schedule.py:144-151):
`priorities = [j.priority for j in self.competing_jobs]` — the scheduler's
full job list, which contains the job itself once registered — then
`self.priority = min(priorities) - 1`.  The job is the one at index `i` of
the scheduler's job list. -/
def highest_priority (jobs : List AdvJob) (i : ℕ) : List AdvJob :=
  match pyMin (jobs.map AdvJob.priority), jobs.get? i with
  | some m, some j => jobs.set i { j with priority := m - 1 }
  | _, _ => jobs

/-- `AdvancedJob.lowest_priority` (services/advanced_schedule.py:153-160):
`self.priority = max(priorities) + 1`. -/
def lowest_priority (jobs : List AdvJob) (i : ℕ) : List AdvJob :=
  match pyMax (jobs.map AdvJob.priority), jobs.get? i with
  | some m, some j => jobs.set i { j with priority := m + 1 }
  | _, _ => jobs

/-- A sample step: pump `p`, start state `full`, end state `done`, no error
checks, 5 second limit. -/
def stepA : Step :=
  { name := "stepA", pump := "p", start_state := "full", end_state := "done",
    error_checks := [], max_runtime := 5 }

/-- A sample step with one error check `res` and a 10 second limit. -/
def stepRes : Step :=
  { name := "stepRes", pump := "p", start_state := "start", end_state := "done",
    error_checks := ["res"], max_runtime := 10 }

/-- A polling tick with the tank still mid-transfer and the `res` check
triggered, observed 1 second in. -/
def trigTick : Tick :=
  { tank_state := TankState.state "draining", triggered := [true], run_time := 1 }

/-- A polling tick at which the tank has reached the end state `done`. -/
def endTick : Tick :=
  { tank_state := TankState.state "done", triggered := [true], run_time := 1 }

/-- A tick at which the tank has reached `stepA`'s end state. -/
def tickDone : Tick :=
  { tank_state := TankState.state "done", triggered := [], run_time := 0 }

/-- Triggered tick at 2 seconds. -/
def trigTick2 : Tick :=
  { tank_state := TankState.state "draining", triggered := [true], run_time := 2 }

/-- Triggered tick at 10 seconds (at `stepRes`'s limit). -/
def trigTick10 : Tick :=
  { tank_state := TankState.state "draining", triggered := [true], run_time := 10 }

/-- A sample registered job. -/
def job0 : AdvJob :=
  { id := 0, next_run := some 0, priority := 0, tags := ["t", "u"], run_once := false }

/-- The shape claimed for an unmet-start return value: a `(0.0, faults)` tuple
carrying exactly one fault (written from the claim's words, for refutation). -/
def claimC1Shape : Option StepResult → Bool
  | some (StepResult.faults rt errs) => decide (rt = 0) && decide (errs.length = 1)
  | _ => false

/-- Helper: `errStep` never changes `permitted_runs`. -/
theorem errStep_permitted (s : ErrorSensor) (e : ErrEvent) :
    (errStep s e).permitted_runs = s.permitted_runs := by
  cases e with
  | trigger => rfl
  | clear => rfl
  | check d => by_cases h : s.triggered && d <;> simp [errStep, h]

/-- Helper: `errRun` never changes `permitted_runs`. -/
theorem errRun_permitted (s : ErrorSensor) (es : List ErrEvent) :
    (errRun s es).permitted_runs = s.permitted_runs := by
  induction es generalizing s with
  | nil => rfl
  | cons e es ih =>
    rw [errRun, List.foldl_cons, ← errRun, ih, errStep_permitted]

/-- Helper: `remaining_runs` is bounded below by `min` of the initial
remaining and permitted counts, minus the number of decrementing
`check_error` calls. -/
theorem errRun_lower (s : ErrorSensor) (es : List ErrEvent) :
    min s.remaining_runs s.permitted_runs - (countDec es : ℤ) ≤ (errRun s es).remaining_runs := by
  induction es generalizing s with
  | nil => simp [errRun, countDec]
  | cons e es ih =>
    have h := ih (errStep s e)
    rw [errStep_permitted] at h
    have hr : errRun s (e :: es) = errRun (errStep s e) es := by
      rw [errRun, List.foldl_cons, ← errRun]
    rw [hr]
    cases e with
    | trigger =>
      have hcd : countDec (ErrEvent.trigger :: es) = countDec es := by
        simp [countDec, List.countP_cons]
      have he : (errStep s ErrEvent.trigger).remaining_runs = s.remaining_runs := rfl
      rw [hcd]
      rw [he] at h
      exact h
    | clear =>
      have hcd : countDec (ErrEvent.clear :: es) = countDec es := by
        simp [countDec, List.countP_cons]
      have he : (errStep s ErrEvent.clear).remaining_runs = s.permitted_runs := rfl
      rw [hcd]
      rw [he] at h
      omega
    | check d =>
      by_cases ht : s.triggered && d
      · have hd : d = true := by
          cases d <;> simp_all
        subst hd
        have hcd : countDec (ErrEvent.check true :: es) = countDec es + 1 := by
          simp [countDec, List.countP_cons]
        have he : (errStep s (ErrEvent.check true)).remaining_runs = s.remaining_runs - 1 := by
          simp [errStep, ht]
        rw [hcd]
        rw [he] at h
        push_cast
        omega
      · have he : errStep s (ErrEvent.check d) = s := by
          simp [errStep, ht]
        rw [he] at h ⊢
        have hcd : (countDec es : ℤ) ≤ (countDec (ErrEvent.check d :: es) : ℤ) := by
          cases d <;> simp [countDec, List.countP_cons]
        omega

/-- C2 counterexample: with `permitted_runs = 1`, a trigger transition
followed by two decrementing `check_error` calls drives `remaining_runs`
to `-1`, so the counter does become negative. -/
theorem C2_counterexample :
    (errRun ⟨1, 1, false⟩ [ErrEvent.trigger, ErrEvent.check true, ErrEvent.check true]).remaining_runs = -1
    ∧ ¬ (0 ≤ (errRun ⟨1, 1, false⟩
        [ErrEvent.trigger, ErrEvent.check true, ErrEvent.check true]).remaining_runs) := by
  decide

/-- C2 (amended): for every sequence of trigger/clear events and
`check_error` calls, `remaining_runs` is reset to exactly `permitted_runs`
on each transition to the clear state, and it is bounded below by
`min(initial remaining, permitted) - (number of decrementing check calls)` —
`check_error` applies no floor at zero, so the counter can go negative. -/
theorem C2_amended_thm (s : ErrorSensor) (es : List ErrEvent) :
    (errRun s (es ++ [ErrEvent.clear])).remaining_runs = s.permitted_runs
    ∧ min s.remaining_runs s.permitted_runs - (countDec es : ℤ) ≤ (errRun s es).remaining_runs := by
  constructor
  · have h1 : errRun s (es ++ [ErrEvent.clear]) = errStep (errRun s es) ErrEvent.clear := by
      rw [errRun, List.foldl_append]
      rfl
    rw [h1]
    show (errRun s es).permitted_runs = s.permitted_runs
    exact errRun_permitted s es
  · exact errRun_lower s es

/-- C1 counterexample: calling `run_step` with the tank in state `empty`
against a step requiring start state `full` returns a single bare
`InitialStateError(step.name, tank_state)` — not a `(0.0, [fault])` tuple
carrying an elapsed time of `0.0` and exactly one fault. -/
theorem C1_counterexample :
    (Dispenser.run_step stepA (TankState.state "empty") [] [] 0 []).1
      = some (StepResult.invalidStart "stepA" (TankState.state "empty"))
    ∧ claimC1Shape (Dispenser.run_step stepA (TankState.state "empty") [] [] 0 []).1 = false := by
  decide

/-- C1 (amended): for every step and monitor state failing the start check
`monitor.tank_state == step.start_state`, `run_step` returns a single bare
`InitialStateError` carrying the step's name and the actual tank state —
with no elapsed-time value and no fault list — and performs no pump action
at all (in particular it never calls `on()`). -/
theorem C1_amended_thm (step : Step) (ts0 : TankState) (perms rems0 : List ℤ) (r0 : ℚ)
    (ticks : List Tick) (h : ts0 ≠ TankState.state step.start_state) :
    Dispenser.run_step step ts0 perms rems0 r0 ticks
      = (some (StepResult.invalidStart step.name ts0), []) := by
  unfold Dispenser.run_step
  rw [if_neg h]

/-- C1 witness: the amended theorem applied at a concrete unmet start state. -/
theorem C1_witness :
    (TankState.state "empty" ≠ TankState.state stepA.start_state)
    ∧ Dispenser.run_step stepA (TankState.state "empty") [] [] 0 []
      = (some (StepResult.invalidStart stepA.name (TankState.state "empty")), []) :=
  ⟨by decide, C1_amended_thm stepA (TankState.state "empty") [] [] 0 [] (by decide)⟩

/-- C5: whenever the start precondition is met (so `_run_step` switched the
pump on) and `run_step` returns, its pump-action trace is exactly
`[on, off]` — the pump is switched off before returning on every exit path
(end state reached or timeout), never left active. -/
theorem C5_actuator_off (step : Step) (ts0 : TankState) (perms rems0 : List ℤ) (r0 : ℚ)
    (ticks : List Tick) (res : StepResult) (acts : List PumpAction)
    (hstart : ts0 = TankState.state step.start_state)
    (hret : Dispenser.run_step step ts0 perms rems0 r0 ticks = (some res, acts)) :
    acts = [PumpAction.on, PumpAction.off] := by
  unfold Dispenser.run_step at hret
  rw [if_pos hstart] at hret
  rcases hm : Dispenser.run_step_inner step perms rems0 r0 ticks with _ | ⟨rt, errs⟩
  · rw [hm] at hret
    simp at hret
  · rw [hm] at hret
    dsimp only at hret
    by_cases h : errs.any Option.isSome
    · rw [if_pos h] at hret
      exact (congrArg Prod.snd hret).symm
    · rw [if_neg h] at hret
      exact (congrArg Prod.snd hret).symm

/-- C5 witness: the theorem applied to a concrete run that reaches its end
state on the first poll. -/
theorem C5_witness :
    (TankState.state "full" = TankState.state stepA.start_state)
    ∧ [PumpAction.on, PumpAction.off] = [PumpAction.on, PumpAction.off] :=
  ⟨by decide,
    (C5_actuator_off stepA (TankState.state "full") [] [] 0 [tickDone] (StepResult.ok 0)
        [PumpAction.on, PumpAction.off] (by decide) (by decide)).symm ▸ rfl⟩

/-- C6 (code behavior at the failing input): with one error check whose
budget is exhausted on the very first tick (`permitted_runs = 0`, so
`remaining_runs` drops to `-1 <= 0`), the polling loop does not exit — after
two triggered ticks it is still polling (`none`, pump still on), and it only
returns once `run_time` reaches `max_time`, with the timeout fault appended.
The `break` under `if e.remaining_runs <= 0` exits only the inner scan of
`errs`, never the while-loop. -/
theorem C6_code_behavior :
    Dispenser.run_step stepRes (TankState.state "start") [0] [0] 0 [trigTick, trigTick2]
      = (none, [PumpAction.on])
    ∧ Dispenser.run_step stepRes (TankState.state "start") [0] [0] 0
        [trigTick, trigTick2, trigTick10]
      = (some (StepResult.faults 10 [ErrItem.est "res" (-1), ErrItem.timeout "p" 10]),
          [PumpAction.on, PumpAction.off]) := by
  decide

/-- C10: whenever zero or more than one tank state is active,
`Monitor.tank_state` returns the `CheckError` value (it is a total function —
no exception), and a `run_step` attempted in that situation takes the
invalid-start branch (a `CheckError` never equals the start-state string), so
it never silently passes the start-state check and performs no pump action. -/
theorem C10_ambiguous_state (tsm : List (String × List Bool)) (step : Step)
    (perms rems0 : List ℤ) (r0 : ℚ) (ticks : List Tick)
    (h : tsm.countP (fun p => p.2.all (fun b => b)) ≠ 1) :
    Monitor.tank_state tsm = TankState.checkError
    ∧ Dispenser.run_step step (Monitor.tank_state tsm) perms rems0 r0 ticks
      = (some (StepResult.invalidStart step.name TankState.checkError), []) := by
  have hts : Monitor.tank_state tsm = TankState.checkError := by
    unfold Monitor.tank_state
    rcases hf : tsm.filter (fun p => p.2.all (fun b => b)) with _ | ⟨a, rest⟩
    · rw [hf]
    · rcases rest with _ | ⟨b, t⟩
      · exfalso
        apply h
        rw [List.countP_eq_length_filter, hf]
        rfl
      · rw [hf]
  refine ⟨hts, ?_⟩
  rw [hts]
  unfold Dispenser.run_step
  rw [if_neg (fun hc => TankState.noConfusion hc)]

/-- C10 witness: two simultaneously active tank states. -/
theorem C10_witness :
    ([("a", [true]), ("b", [true])] : List (String × List Bool)).countP
        (fun p => p.2.all (fun b => b)) ≠ 1
    ∧ Monitor.tank_state [("a", [true]), ("b", [true])] = TankState.checkError
    ∧ Dispenser.run_step stepA (Monitor.tank_state [("a", [true]), ("b", [true])]) [] [] 0 []
      = (some (StepResult.invalidStart stepA.name TankState.checkError), []) :=
  ⟨by decide,
    (C10_ambiguous_state [("a", [true]), ("b", [true])] stepA [] [] 0 [] (by decide)).1,
    (C10_ambiguous_state [("a", [true]), ("b", [true])] stepA [] [] 0 [] (by decide)).2⟩

/-- Helper for C7: the first triggered tick of an episode decrements the
check's budget once (`decrement = not(False) = True`). -/
theorem runLoop_first (ts : List Tick) (r : ℤ) (rt : ℚ) :
    runLoop [("res", (10 : ℤ))] "done" (max 0 10) "p" (trigTick :: ts) [(none, r)] rt
    = runLoop [("res", (10 : ℤ))] "done" (max 0 10) "p" ts
        [(some (ErrItem.est "res" (r - 1)), r - 1)] 1 := by
  rw [runLoop]
  rw [if_neg (by decide)]
  norm_num [trigTick, tickCheck, List.range_succ, List.range_zero]

/-- Helper for C7: on every later tick of a continuous triggered episode the
previous `errs` entry is truthy, so `check_error` is called with
`decrement=False` and the budget is unchanged. -/
theorem runLoop_trig_step (ts : List Tick) (x : ℤ) (rt : ℚ) :
    runLoop [("res", (10 : ℤ))] "done" (max 0 10) "p" (trigTick :: ts)
      [(some (ErrItem.est "res" x), x)] rt
    = runLoop [("res", (10 : ℤ))] "done" (max 0 10) "p" ts
        [(some (ErrItem.est "res" x), x)] 1 := by
  rw [runLoop]
  rw [if_neg (by decide)]
  norm_num [trigTick, tickCheck, List.range_succ, List.range_zero]
  simp

/-- Helper for C7: reaching the end state exits the loop with the current
`run_time` and `errs`. -/
theorem runLoop_endTick (x : ℤ) (rt : ℚ) :
    runLoop [("res", (10 : ℤ))] "done" (max 0 10) "p" [endTick]
      [(some (ErrItem.est "res" x), x)] rt
    = some (rt, [some (ErrItem.est "res" x)]) := by
  rw [runLoop]
  rw [if_pos (by decide)]
  rfl

/-- C7 (amended): every configured error check is re-evaluated on every
polling tick, but its budget is decremented exactly once per continuous
triggered episode — on the first triggered tick, when the previous `errs`
entry was falsy — not once per tick: a run with `n >= 1` consecutive
triggered ticks ends with `remaining_runs = r - 1`, regardless of `n`. -/
theorem C7_amended_thm (n : ℕ) (h : 1 ≤ n) (r : ℤ) :
    Dispenser.run_step stepRes (TankState.state "start") [10] [r] 0
      (List.replicate n trigTick ++ [endTick])
    = (some (StepResult.faults 1 [ErrItem.est "res" (r - 1)]),
        [PumpAction.on, PumpAction.off]) := by
  obtain ⟨k, rfl⟩ : ∃ k, n = k + 1 := ⟨n - 1, by omega⟩
  have hloop : ∀ (m : ℕ) (x : ℤ),
      runLoop [("res", (10 : ℤ))] "done" (max 0 10) "p"
        (List.replicate m trigTick ++ [endTick]) [(some (ErrItem.est "res" x), x)] 1
      = some (1, [some (ErrItem.est "res" x)]) := by
    intro m
    induction m with
    | zero =>
      intro x
      simpa using runLoop_endTick x 1
    | succ j ih =>
      intro x
      rw [List.replicate_succ, List.cons_append, runLoop_trig_step]
      exact ih x
  have hinner : Dispenser.run_step_inner stepRes [10] [r] 0
      (List.replicate (k + 1) trigTick ++ [endTick])
      = some (1, [some (ErrItem.est "res" (r - 1))]) := by
    show runLoop [("res", (10 : ℤ))] "done" (max 0 10) "p"
        (List.replicate (k + 1) trigTick ++ [endTick]) [(none, r)] 0 = _
    rw [List.replicate_succ, List.cons_append, runLoop_first]
    exact hloop k (r - 1)
  unfold Dispenser.run_step
  rw [if_pos (by decide)]
  rw [hinner]
  dsimp only
  rw [if_pos (by simp)]
  simp

/-- C7 counterexample: two consecutive triggered ticks starting from
`remaining_runs = 5` leave the budget at `4`, not at `5 - 2 = 3` as a
once-per-tick decrement would give. -/
theorem C7_counterexample :
    Dispenser.run_step stepRes (TankState.state "start") [10] [5] 0
        [trigTick, trigTick, endTick]
      = (some (StepResult.faults 1 [ErrItem.est "res" 4]), [PumpAction.on, PumpAction.off])
    ∧ (4 : ℤ) ≠ 5 - 2 := by
  decide

/-- C7 witness: the amended theorem at a two-tick episode. -/
theorem C7_witness :
    (1 ≤ 2)
    ∧ Dispenser.run_step stepRes (TankState.state "start") [10] [5] 0
        (List.replicate 2 trigTick ++ [endTick])
      = (some (StepResult.faults 1 [ErrItem.est "res" 4]), [PumpAction.on, PumpAction.off]) := by
  refine ⟨by norm_num, ?_⟩
  have h := C7_amended_thm 2 (by norm_num) 5
  norm_num at h
  exact h

/-- C4: the step loop of `Routine._run` unpacks every `run_step` result as a
`(run_time, errs)` tuple, so it raises `TypeError` as soon as the currently
executed step's result is a bare float (clean success) or a bare
`InitialStateError` (invalid start); it can return normally (or with
`CancelJob`) only when every executed step produced a tuple. -/
theorem C4_duck_typed_results :
    (∀ (step : Step) (res : StepResult) (rest : List (Step × StepResult)),
        isFaults res = false → runSteps ((step, res) :: rest) = Except.error PyErr.typeError)
    ∧ (∀ l : List (Step × StepResult), (∀ p ∈ l, isFaults p.2 = true) →
        runSteps l ≠ Except.error PyErr.typeError) := by
  constructor
  · intro step res rest h
    cases res with
    | ok rt => rfl
    | faults rt errs => simp [isFaults] at h
    | invalidStart s st => rfl
  · intro l h
    induction l with
    | nil => simp [runSteps]
    | cons p rest ih =>
      obtain ⟨step, res⟩ := p
      have h1 := h _ (List.mem_cons_self _ _)
      have ih' := ih (fun q hq => h q (List.mem_cons_of_mem _ hq))
      cases res with
      | ok rt => simp [isFaults] at h1
      | invalidStart s st => simp [isFaults] at h1
      | faults rt errs =>
        simp only [runSteps]
        split_ifs <;> simp_all

/-- C4 witness: a bare-float result raises `TypeError`; a tuple result does
not. -/
theorem C4_witness :
    runSteps [(stepA, StepResult.ok 1)] = Except.error PyErr.typeError
    ∧ runSteps [(stepA, StepResult.faults 1 [ErrItem.timeout "p" 1])]
        ≠ Except.error PyErr.typeError :=
  ⟨C4_duck_typed_results.1 stepA (StepResult.ok 1) [] (by decide),
    C4_duck_typed_results.2 [(stepA, StepResult.faults 1 [ErrItem.timeout "p" 1])] (by decide)⟩

/-- Helper for C3: Python's `not (b < a)` under `AdvancedJob.__lt__` is
exactly the claimed lexicographic `(next_run, priority)` order with `None`
last. -/
theorem schedLt_false_iff (a b : AdvJob) : schedLt b a = false ↔ claimOrder a b := by
  unfold schedLt claimOrder
  rcases ha : a.next_run with _ | x <;> rcases hb : b.next_run with _ | y <;> simp
  by_cases hxy : y = x
  · subst hxy
    simp [lt_irrefl, not_lt]
  · simp [hxy, not_lt]
    constructor
    · intro h
      exact Or.inl (lt_of_le_of_ne h (Ne.symm hxy))
    · rintro (h | ⟨h, _⟩)
      · exact le_of_lt h
      · exact absurd h.symm hxy

/-- Helper for C3: the claimed order is total. -/
theorem claimOrder_total (a b : AdvJob) : claimOrder a b ∨ claimOrder b a := by
  unfold claimOrder
  rcases ha : a.next_run with _ | x <;> rcases hb : b.next_run with _ | y <;> simp
  rcases lt_trichotomy x y with h | h | h
  · exact Or.inl (Or.inl h)
  · subst h
    rcases le_total a.priority b.priority with h | h
    · exact Or.inl (Or.inr ⟨rfl, h⟩)
    · exact Or.inr (Or.inr ⟨rfl, h⟩)
  · exact Or.inr (Or.inl h)

/-- Helper for C3: the claimed order is transitive. -/
theorem claimOrder_trans (a b c : AdvJob) :
    claimOrder a b → claimOrder b c → claimOrder a c := by
  unfold claimOrder
  rcases ha : a.next_run with _ | x <;> rcases hb : b.next_run with _ | y <;>
    rcases hc : c.next_run with _ | z <;> simp
  rintro (hab | ⟨hab, pab⟩) (hbc | ⟨hbc, pbc⟩)
  · exact Or.inl (lt_trans hab hbc)
  · subst hbc
    exact Or.inl hab
  · subst hab
    exact Or.inl hbc
  · subst hab
    subst hbc
    exact Or.inr ⟨rfl, le_trans pab pbc⟩

instance : IsTotal AdvJob pyLe :=
  ⟨fun a b => by
    unfold pyLe
    rw [schedLt_false_iff, schedLt_false_iff]
    exact claimOrder_total a b⟩

instance : IsTrans AdvJob pyLe :=
  ⟨fun a b c hab hbc => by
    unfold pyLe at hab hbc ⊢
    rw [schedLt_false_iff] at hab hbc ⊢
    exact claimOrder_trans a b c hab hbc⟩

/-- C3: `run_pending` executes exactly the due jobs, in non-decreasing
`(next_run, priority)` order — equal `next_run` resolves by lower priority
value first — and under `AdvancedJob.__lt__` a job with `next_run = None`
sorts after every scheduled job (a scheduled job is always `__lt__` a
never-scheduled one, never the other way round). -/
theorem C3_run_pending (now : ℚ) (jobs : List AdvJob) (a b : AdvJob) (x : ℚ) :
    (runPendingOrder now jobs).Perm (jobs.filter (dueAt now))
    ∧ List.Sorted claimOrder (runPendingOrder now jobs)
    ∧ schedLt { a with next_run := some x } { b with next_run := none } = true
    ∧ schedLt { b with next_run := none } { a with next_run := some x } = false := by
  refine ⟨List.perm_insertionSort _ _, ?_, rfl, rfl⟩
  have h := List.sorted_insertionSort pyLe (jobs.filter (dueAt now))
  exact h.imp (fun {p q} hpq => (schedLt_false_iff p q).mp hpq)

/-- C3 witness: the ordering theorem at a concrete one-job schedule. -/
theorem C3_witness :
    (runPendingOrder 0 [job0]).Perm ([job0].filter (dueAt 0))
    ∧ List.Sorted claimOrder (runPendingOrder 0 [job0]) :=
  ⟨(C3_run_pending 0 [job0] job0 job0 0).1, (C3_run_pending 0 [job0] job0 job0 0).2.1⟩

/-- Helper for C8: `foldl min` is bounded by its initial accumulator. -/
theorem foldl_min_le_init (xs : List ℤ) (x : ℤ) : xs.foldl min x ≤ x := by
  induction xs generalizing x with
  | nil => exact le_refl x
  | cons z zs ih =>
    rw [List.foldl_cons]
    exact le_trans (ih (min x z)) (min_le_left _ _)

/-- Helper for C8: `foldl min` is bounded by every list member. -/
theorem foldl_min_le_mem (xs : List ℤ) (x y : ℤ) (h : y ∈ xs) : xs.foldl min x ≤ y := by
  induction xs generalizing x with
  | nil => simp at h
  | cons z zs ih =>
    rw [List.foldl_cons]
    rcases List.mem_cons.mp h with rfl | h
    · exact le_trans (foldl_min_le_init zs (min x y)) (min_le_right _ _)
    · exact ih _ h

/-- Helper for C8: Python's `min` is a lower bound for every member. -/
theorem pyMin_le_of_mem (l : List ℤ) (m x : ℤ) (hm : pyMin l = some m) (hx : x ∈ l) :
    m ≤ x := by
  cases l with
  | nil => cases hm
  | cons a as =>
    have hm' : as.foldl min a = m := by
      simpa [pyMin] using hm
    rw [← hm']
    rcases List.mem_cons.mp hx with rfl | h
    · exact foldl_min_le_init as x
    · exact foldl_min_le_mem as a x h

/-- Helper for C8: `foldl max` dominates its initial accumulator. -/
theorem foldl_max_ge_init (xs : List ℤ) (x : ℤ) : x ≤ xs.foldl max x := by
  induction xs generalizing x with
  | nil => exact le_refl x
  | cons z zs ih =>
    rw [List.foldl_cons]
    exact le_trans (le_max_left _ _) (ih (max x z))

/-- Helper for C8: `foldl max` dominates every list member. -/
theorem foldl_max_ge_mem (xs : List ℤ) (x y : ℤ) (h : y ∈ xs) : y ≤ xs.foldl max x := by
  induction xs generalizing x with
  | nil => simp at h
  | cons z zs ih =>
    rw [List.foldl_cons]
    rcases List.mem_cons.mp h with rfl | h
    · exact le_trans (le_max_right _ _) (foldl_max_ge_init zs (max x y))
    · exact ih _ h

/-- Helper for C8: Python's `max` is an upper bound for every member. -/
theorem pyMax_ge_of_mem (l : List ℤ) (m x : ℤ) (hm : pyMax l = some m) (hx : x ∈ l) :
    x ≤ m := by
  cases l with
  | nil => cases hm
  | cons a as =>
    have hm' : as.foldl max a = m := by
      simpa [pyMax] using hm
    rw [← hm']
    rcases List.mem_cons.mp hx with rfl | h
    · exact foldl_max_ge_init as x
    · exact foldl_max_ge_mem as a x h

/-- Helper for C8: one `highest_priority` call on a registered job sets its
priority to `min(all priorities) - 1`. -/
theorem highest_priority_get (jobs : List AdvJob) (i : ℕ) (h : i < jobs.length) :
    ∃ m j, pyMin (jobs.map AdvJob.priority) = some m ∧ jobs.get? i = some j
      ∧ highest_priority jobs i = jobs.set i { j with priority := m - 1 }
      ∧ (highest_priority jobs i).get? i = some { j with priority := m - 1 } := by
  obtain ⟨j, hj⟩ : ∃ j, jobs.get? i = some j := by
    cases hg : jobs.get? i with
    | none =>
      exfalso
      rw [List.get?_eq_none] at hg
      omega
    | some j => exact ⟨j, rfl⟩
  obtain ⟨m, hm⟩ : ∃ m, pyMin (jobs.map AdvJob.priority) = some m := by
    cases jobs with
    | nil => simp at h
    | cons a as => exact ⟨_, rfl⟩
  have hset : highest_priority jobs i = jobs.set i { j with priority := m - 1 } := by
    unfold highest_priority
    rw [hm, hj]
  refine ⟨m, j, hm, hj, hset, ?_⟩
  rw [hset, List.get?_eq_getElem?]
  exact List.getElem?_set_eq_of_lt _ h

/-- Helper for C8: one `lowest_priority` call on a registered job sets its
priority to `max(all priorities) + 1`. -/
theorem lowest_priority_get (jobs : List AdvJob) (i : ℕ) (h : i < jobs.length) :
    ∃ m j, pyMax (jobs.map AdvJob.priority) = some m ∧ jobs.get? i = some j
      ∧ lowest_priority jobs i = jobs.set i { j with priority := m + 1 }
      ∧ (lowest_priority jobs i).get? i = some { j with priority := m + 1 } := by
  obtain ⟨j, hj⟩ : ∃ j, jobs.get? i = some j := by
    cases hg : jobs.get? i with
    | none =>
      exfalso
      rw [List.get?_eq_none] at hg
      omega
    | some j => exact ⟨j, rfl⟩
  obtain ⟨m, hm⟩ : ∃ m, pyMax (jobs.map AdvJob.priority) = some m := by
    cases jobs with
    | nil => simp at h
    | cons a as => exact ⟨_, rfl⟩
  have hset : lowest_priority jobs i = jobs.set i { j with priority := m + 1 } := by
    unfold lowest_priority
    rw [hm, hj]
  refine ⟨m, j, hm, hj, hset, ?_⟩
  rw [hset, List.get?_eq_getElem?]
  exact List.getElem?_set_eq_of_lt _ h

/-- C8 (amended): `highest_priority` / `lowest_priority` are not idempotent
on a registered job: because the job's own just-assigned priority is among
the competing priorities, a second invocation with no intervening job-set
change strictly decreases (respectively increases) the priority again. -/
theorem C8_amended_thm (jobs : List AdvJob) (i : ℕ) (h : i < jobs.length) :
    ∃ p1 p2 q1 q2 : ℤ,
      ((highest_priority jobs i).get? i).map AdvJob.priority = some p1
      ∧ ((highest_priority (highest_priority jobs i) i).get? i).map AdvJob.priority = some p2
      ∧ p2 < p1
      ∧ ((lowest_priority jobs i).get? i).map AdvJob.priority = some q1
      ∧ ((lowest_priority (lowest_priority jobs i) i).get? i).map AdvJob.priority = some q2
      ∧ q1 < q2 := by
  obtain ⟨m, j, hm, hj, hset, hget⟩ := highest_priority_get jobs i h
  have hlen : i < (highest_priority jobs i).length := by
    rw [hset, List.length_set]
    exact h
  obtain ⟨m2, j2, hm2, hj2, hset2, hget2⟩ :=
    highest_priority_get (highest_priority jobs i) i hlen
  have hmem : (m - 1) ∈ (highest_priority jobs i).map AdvJob.priority :=
    List.mem_map_of_mem AdvJob.priority (List.get?_mem hget)
  have hle : m2 ≤ m - 1 := pyMin_le_of_mem _ _ _ hm2 hmem
  obtain ⟨w, jw, hw, hjw, hsetw, hgetw⟩ := lowest_priority_get jobs i h
  have hlenw : i < (lowest_priority jobs i).length := by
    rw [hsetw, List.length_set]
    exact h
  obtain ⟨w2, jw2, hw2, hjw2, hsetw2, hgetw2⟩ :=
    lowest_priority_get (lowest_priority jobs i) i hlenw
  have hmemw : (w + 1) ∈ (lowest_priority jobs i).map AdvJob.priority :=
    List.mem_map_of_mem AdvJob.priority (List.get?_mem hgetw)
  have hgew : w + 1 ≤ w2 := pyMax_ge_of_mem _ _ _ hw2 hmemw
  refine ⟨m - 1, m2 - 1, w + 1, w2 + 1, ?_, ?_, by omega, ?_, ?_, by omega⟩
  · rw [hget]
    rfl
  · rw [hget2]
    rfl
  · rw [hgetw]
    rfl
  · rw [hgetw2]
    rfl

/-- C8 counterexample: a scheduler holding one job of priority `0` — the
first `highest_priority` call yields `-1`, the second yields `-2`, so the
second invocation is not a no-op on the priority. -/
theorem C8_counterexample :
    highest_priority [job0] 0
      = [{ id := 0, next_run := some 0, priority := -1, tags := ["t", "u"], run_once := false }]
    ∧ highest_priority (highest_priority [job0] 0) 0
      = [{ id := 0, next_run := some 0, priority := -2, tags := ["t", "u"], run_once := false }]
    ∧ (-2 : ℤ) ≠ -1 := by
  decide

/-- C8 witness: the amended theorem at the one-job scheduler. -/
theorem C8_witness :
    (0 < ([job0] : List AdvJob).length)
    ∧ ∃ p1 p2 q1 q2 : ℤ,
      ((highest_priority [job0] 0).get? 0).map AdvJob.priority = some p1
      ∧ ((highest_priority (highest_priority [job0] 0) 0).get? 0).map AdvJob.priority = some p2
      ∧ p2 < p1
      ∧ ((lowest_priority [job0] 0).get? 0).map AdvJob.priority = some q1
      ∧ ((lowest_priority (lowest_priority [job0] 0) 0).get? 0).map AdvJob.priority = some q2
      ∧ q1 < q2 :=
  ⟨by decide, C8_amended_thm [job0] 0 (by decide)⟩

/-- Helper for C9: membership in the left fold of per-tag intersections. -/
theorem mem_foldl_inter (jobs : List AdvJob) (ts : List String) (S : Finset AdvJob) (j : AdvJob) :
    j ∈ ts.foldl (fun acc tg => acc ∩ (get_jobs jobs tg).toFinset) S
      ↔ j ∈ S ∧ ∀ tg ∈ ts, j ∈ get_jobs jobs tg := by
  induction ts generalizing S with
  | nil => simp
  | cons t ts ih =>
    rw [List.foldl_cons, ih]
    simp [Finset.mem_inter, List.mem_toFinset, and_assoc]

/-- C9: for every non-empty tag list, `get_jobs_from_tags` returns exactly
the jobs carrying all the given tags (an intersection, not a union), and
appending one more tag to the query yields a subset of the original result
set. -/
theorem C9_tags_intersection (jobs : List AdvJob) (t t' : String) (ts : List String) :
    ∃ S, get_jobs_from_tags jobs (t :: ts) = some S
      ∧ (∀ j, j ∈ S ↔ j ∈ jobs ∧ ∀ tg ∈ t :: ts, tg ∈ j.tags)
      ∧ (get_jobs_from_tags jobs ((t :: ts) ++ [t'])).getD ∅ ⊆ S := by
  refine ⟨_, rfl, ?_, ?_⟩
  · intro j
    rw [mem_foldl_inter]
    simp only [get_jobs, List.mem_toFinset, List.mem_filter, decide_eq_true_eq,
      List.forall_mem_cons]
    constructor
    · rintro ⟨⟨hj, ht⟩, hts⟩
      exact ⟨hj, ht, fun tg htg => ((hts tg htg).2)⟩
    · rintro ⟨hj, ht, hts⟩
      exact ⟨⟨hj, ht⟩, fun tg htg => ⟨hj, hts tg htg⟩⟩
  · have he : get_jobs_from_tags jobs ((t :: ts) ++ [t'])
        = some ((ts ++ [t']).foldl (fun acc tg => acc ∩ (get_jobs jobs tg).toFinset)
            (get_jobs jobs t).toFinset) := rfl
    rw [he, Option.getD_some, List.foldl_append, List.foldl_cons, List.foldl_nil]
    exact Finset.inter_subset_left

/-- C9 witness: the theorem at a concrete one-job scheduler and tag query. -/
theorem C9_witness :
    ∃ S, get_jobs_from_tags [job0] ["t"] = some S
      ∧ (∀ j, j ∈ S ↔ j ∈ [job0] ∧ ∀ tg ∈ ["t"], tg ∈ j.tags)
      ∧ (get_jobs_from_tags [job0] (["t"] ++ ["u"])).getD ∅ ⊆ S :=
  C9_tags_intersection [job0] "t" "u" []
